import Mathlib

/-
  Shallow embedding of src/02-nodejs/todoServer.file.js: a single-file
  Express todo server persisting its list to a JSON file.

  Modelling conventions:
  * JSON/JS values are the inductive type JValue.  Numbers are modelled as
    Option Rat: some q is the finite number q, none is NaN (produced by
    coercing a non-numeric path parameter with the unary + operator).
    Decimal numerals are read as exact rationals; the rounding of long
    literals to IEEE-754 doubles is not modelled.  Infinity (reachable
    only from a path parameter spelled Infinity, never from JSON) is
    collapsed to the NaN sentinel: like NaN it is non-finite, strictly
    equals no stored finite id, and never reaches an arithmetic path in
    the verified claims.
  * Property access on a non-object yields undefined, modelled as none.
    (JS would throw on null; the theorems below keep records as objects,
    which is the data model of the store.)
  * Each route handler is a pure function from the loaded list and the
    request data to a HandlerResult; the field write is the argument
    passed to storeListToFile when the handler writes, and none when the
    handler sends its response without writing.  The write callback is
    modelled as succeeding (a JS write failure throws and no response is
    sent).
-/

/- The batteries library marks rational arithmetic irreducible to steer
simp towards its rewrite lemmas; re-allow unfolding here so concrete
witnesses evaluate by decide and rfl. -/
attribute [local semireducible] Rat.add Rat.mul Rat.inv Rat.sub

namespace TodoServer

inductive JValue where
  | null : JValue
  | bool (b : Bool) : JValue
  | num (n : Option Rat) : JValue
  | str (s : String) : JValue
  | arr (items : List JValue) : JValue
  | obj (fields : List (String × JValue)) : JValue

/-- First-match lookup in an object's field list (JS objects built by
JSON.parse or object literals have unique keys, so first match is the
key's value). -/
def lookupField : List (String × JValue) → String → Option JValue
  | [], _ => none
  | p :: ps, k => if p.1 = k then some p.2 else lookupField ps k

/-- Property access x.k; undefined (absent property, or access on a
non-object) is none. -/
def getField : JValue → String → Option JValue
  | JValue.obj l, k => lookupField l k
  | _, _ => none

/-- Assignment of field k in a literal, as in JS spread followed by an
explicit property: an existing key keeps its position and is overwritten,
a new key is appended. -/
def setField (l : List (String × JValue)) (k : String) (v : JValue) :
    List (String × JValue) :=
  if l.any (fun p => p.1 = k) then
    l.map (fun p => if p.1 = k then (k, v) else p)
  else l ++ [(k, v)]

/-- The field list of a spread target; spreading a non-object contributes
no fields (array and string spreads do not occur in reachable code: an
array body has no title and is rejected before any spread). -/
def objFields : JValue → List (String × JValue)
  | JValue.obj l => l
  | _ => []

/-- JS object spread \x7b...a, ...b\x7d: keys of a keep their order, values
overridden by b where b has the key; b's new keys are appended in order. -/
def spreadMerge (a b : List (String × JValue)) : List (String × JValue) :=
  a.map (fun p => match lookupField b p.1 with
                  | some v => (p.1, v)
                  | none => p)
    ++ b.filter (fun q => !(a.any (fun p => p.1 = q.1)))

/-- JS truthiness of a value (undefined is handled at use sites; NaN,
that is num none, is falsy). -/
def jsTruthy : JValue → Bool
  | JValue.null => false
  | JValue.bool b => b
  | JValue.num none => false
  | JValue.num (some n) => n != 0
  | JValue.str s => s ≠ ""
  | JValue.arr _ => true
  | JValue.obj _ => true

/-- Truthiness of x.k, with undefined falsy, as in the guard
if (!newItem.title). -/
def propTruthy (x : JValue) (k : String) : Bool :=
  match getField x k with
  | some v => jsTruthy v
  | none => false

/-- Value of a run of decimal digits (the caller has checked they are
digits). -/
def digitsToNat (cs : List Char) : Nat :=
  cs.foldl (fun acc c => acc * 10 + (c.toNat - 48)) 0

/-- Splits the longest run of leading decimal digits. -/
def takeDigits : List Char → List Char × List Char
  | [] => ([], [])
  | c :: cs =>
    if c.isDigit then
      let r := takeDigits cs
      (c :: r.1, r.2)
    else ([], c :: cs)

/-- Ten to an integer power, as an exact rational. -/
def powTen (e : Int) : Rat :=
  if 0 ≤ e then ((10 : Rat) ^ e.toNat) else 1 / ((10 : Rat) ^ (-e).toNat)

/-- The exact rational value of the decimal literal
ip.fp times 10^ex. -/
def decValue (ip fp : List Char) (ex : Int) : Rat :=
  ((digitsToNat ip : Rat) + (digitsToNat fp : Rat) / (10 : Rat) ^ fp.length)
    * powTen ex

/-- Value of one hexadecimal digit. -/
def hexVal (c : Char) : Option Nat :=
  if '0' ≤ c ∧ c ≤ '9' then some (c.toNat - 48)
  else if 'a' ≤ c ∧ c ≤ 'f' then some (c.toNat - 87)
  else if 'A' ≤ c ∧ c ≤ 'F' then some (c.toNat - 70)
  else none

/-- Value of a non-empty digit string in base b (b at most 16), none on
an empty string or a digit out of range. -/
def radixNum (b : Nat) (cs : List Char) : Option Nat :=
  if cs = [] then none
  else cs.foldl
    (fun acc c =>
      match acc, hexVal c with
      | some a, some d => if d < b then some (a * b + d) else none
      | _, _ => none)
    (some 0)

/-- Whitespace stripped by JS ToNumber before reading a numeric
literal. -/
def isJsSpace (c : Char) : Bool :=
  c = ' ' ∨ c = '\t' ∨ c = '\n' ∨ c = '\r' ∨ c = '\x0b' ∨ c = '\x0c'

/-- Strips leading and trailing whitespace from a character list. -/
def trimChars (cs : List Char) : List Char :=
  ((cs.dropWhile isJsSpace).reverse.dropWhile isJsSpace).reverse

/-- The exponent tail of a JS decimal numeral, which must extend to the
end of the string: empty means exponent 0, otherwise e or E, an optional
sign, and one or more digits. -/
def expTail : List Char → Option Int
  | [] => some 0
  | c :: cs =>
    if c = 'e' ∨ c = 'E' then
      match cs with
      | '+' :: ds =>
        if ds ≠ [] ∧ ds.all Char.isDigit then some (digitsToNat ds : Int)
        else none
      | '-' :: ds =>
        if ds ≠ [] ∧ ds.all Char.isDigit then some (-(digitsToNat ds : Int))
        else none
      | ds =>
        if ds ≠ [] ∧ ds.all Char.isDigit then some (digitsToNat ds : Int)
        else none
    else none

/-- An unsigned JS decimal numeral spanning the whole string:
digits, digits dot digits-or-nothing, or dot digits, each with an
optional exponent tail.  The spelling Infinity is a non-finite value and
is collapsed to the NaN sentinel (see the header comment). -/
def decNum (cs : List Char) : Option Rat :=
  match takeDigits cs with
  | ([], rest) =>
    (match rest with
     | '.' :: r2 =>
       (match takeDigits r2 with
        | ([], _) => none
        | (fp, r3) => (expTail r3).map (fun ex => decValue [] fp ex))
     | _ => none)
  | (ip, rest) =>
    match rest with
    | '.' :: r2 =>
      (match takeDigits r2 with
       | (fp, r3) => (expTail r3).map (fun ex => decValue ip fp ex))
    | r1 => (expTail r1).map (fun ex => decValue ip [] ex)

/-- JS ToNumber on a string, as used by the unary + coercion of the path
parameter: trimmed; empty is 0; a 0x, 0X, 0b, 0B, 0o or 0O prefix reads
an unsigned radix numeral (no sign allowed, as in JS); otherwise an
optionally signed decimal numeral with optional fraction and exponent;
anything else is NaN (none). -/
def strToNum (s : String) : Option Rat :=
  match trimChars s.toList with
  | [] => some 0
  | '0' :: 'x' :: ds => (radixNum 16 ds).map (fun n => (n : Rat))
  | '0' :: 'X' :: ds => (radixNum 16 ds).map (fun n => (n : Rat))
  | '0' :: 'b' :: ds => (radixNum 2 ds).map (fun n => (n : Rat))
  | '0' :: 'B' :: ds => (radixNum 2 ds).map (fun n => (n : Rat))
  | '0' :: 'o' :: ds => (radixNum 8 ds).map (fun n => (n : Rat))
  | '0' :: 'O' :: ds => (radixNum 8 ds).map (fun n => (n : Rat))
  | '+' :: rest => decNum rest
  | '-' :: rest => (decNum rest).map (fun q => -q)
  | t => decNum t

/-- JS ToNumber of a value.  ToPrimitive on arrays and objects is not
modelled (treated as NaN); it is unreachable under the data-model
hypotheses used below. -/
def jsToNum : JValue → Option Rat
  | JValue.num o => o
  | JValue.str s => strToNum s
  | JValue.bool b => some (if b then 1 else 0)
  | JValue.null => some 0
  | JValue.arr _ => none
  | JValue.obj _ => none

/-- JS ToString for the string-concatenation branch of +.  It agrees
with JS on the integers that the verified claims can reach; the JS
decimal rendering of non-integer doubles and the comma-join of arrays
are left as placeholders (both unreachable under the data-model
hypotheses); objects print as in JS. -/
def jsToString : JValue → String
  | JValue.num (some n) => toString n
  | JValue.num none => "NaN"
  | JValue.str s => s
  | JValue.bool b => if b then "true" else "false"
  | JValue.null => "null"
  | JValue.arr _ => ""
  | JValue.obj _ => "[object Object]"

/-- JS relational a > b: two strings compare lexicographically (Lean
compares by code point, JS by UTF-16 unit; they agree outside surrogate
corner cases), otherwise both sides go through ToNumber and any NaN makes
the comparison false. -/
def jsGt (a b : JValue) : Bool :=
  match a, b with
  | JValue.str s, JValue.str t => decide (t < s)
  | _, _ =>
    match jsToNum a, jsToNum b with
    | some x, some y => decide (y < x)
    | _, _ => false

/-- JS addition a + b: a string on either side concatenates, otherwise
numeric addition with NaN propagation. -/
def jsAdd (a b : JValue) : JValue :=
  match a, b with
  | JValue.str s, c => JValue.str (s ++ jsToString c)
  | c, JValue.str t => JValue.str (jsToString c ++ t)
  | _, _ =>
    match jsToNum a, jsToNum b with
    | some x, some y => JValue.num (some (x + y))
    | _, _ => JValue.num none

/-- One step of the forEach loop in generateNewId:
if (item.id > maxId) maxId = item.id.  An absent id is undefined, and
undefined > maxId is false. -/
def bumpMax (maxId item : JValue) : JValue :=
  match getField item "id" with
  | none => maxId
  | some v => if jsGt v maxId then v else maxId

/-- generateNewId from the source: let maxId = 0; for each item, keep the
larger of maxId and item.id; return maxId + 1. -/
def generateNewId (list : List JValue) : JValue :=
  jsAdd (list.foldl bumpMax (JValue.num (some 0))) (JValue.num (some 1))

/-- The predicate x.id === id of the find / findIndex callbacks, where id
is the path parameter after unary + coercion: strict equality with a
number holds only for the same number; NaN (none) matches nothing, and a
non-number id field never strictly equals a number. -/
def idMatches (idv : Option Rat) (x : JValue) : Bool :=
  match getField x "id", idv with
  | some (JValue.num (some k)), some m => k == m
  | _, _ => false

/-- Array.prototype.find: first element satisfying the predicate,
undefined (none) when there is none. -/
def findP (p : JValue → Bool) : List JValue → Option JValue
  | [] => none
  | x :: xs => if p x then some x else findP p xs

/-- Array.prototype.findIndex, with none standing for -1. -/
def findIndexP (p : JValue → Bool) : List JValue → Option Nat
  | [] => none
  | x :: xs => if p x then some 0 else (findIndexP p xs).map (· + 1)

/-- Result of one handler invocation: HTTP status, response body, and the
list passed to storeListToFile (none when the handler does not write). -/
structure HandlerResult where
  status : Nat
  body : JValue
  write : Option (List JValue)

/-- The error bodies sent with res.status(404).send(...). -/
def errObj (msg : String) : JValue := JValue.obj [("error", JValue.str msg)]

/-- GET /todos: load the list and send it. -/
def getTodos (list : List JValue) : HandlerResult :=
  ⟨200, JValue.arr list, none⟩

/-- GET /todos/:id: coerce the parameter, find the record, 404 when the
find result is falsy, else send the record. -/
def getTodoById (p : String) (list : List JValue) : HandlerResult :=
  match findP (idMatches (strToNum p)) list with
  | none => ⟨404, errObj "item not Found", none⟩
  | some item =>
    if jsTruthy item then ⟨200, item, none⟩
    else ⟨404, errObj "item not Found", none⟩

/-- The record appended by POST /todos:
\x7b...newItem, id: generateNewId(list)\x7d. -/
def newRecordOf (body : JValue) (list : List JValue) : JValue :=
  JValue.obj (setField (objFields body) "id" (generateNewId list))

/-- POST /todos: reject a falsy title with 404 before touching the store;
otherwise push the new record, persist, and answer 201 with the entire
updated list. -/
def postTodos (body : JValue) (list : List JValue) : HandlerResult :=
  if !(propTruthy body "title") then ⟨404, errObj "title mandatory", none⟩
  else
    let newList := list ++ [newRecordOf body list]
    ⟨201, JValue.arr newList, some newList⟩

/-- The record stored by PUT /todos/:id:
\x7b...currentItem, ...newItem, id\x7d with id the coerced path
parameter. -/
def updatedItemOf (p : String) (body cur : JValue) : JValue :=
  JValue.obj (setField (spreadMerge (objFields cur) (objFields body)) "id"
    (JValue.num (strToNum p)))

/-- PUT /todos/:id: 404 when findIndex gives -1; else overwrite the slot
with the merged record, persist, and send the full updated list
(status 200). -/
def putTodo (p : String) (body : JValue) (list : List JValue) :
    HandlerResult :=
  match findIndexP (idMatches (strToNum p)) list with
  | none => ⟨404, errObj "item not Found", none⟩
  | some i =>
    let currentItem := (list[i]?).getD JValue.null
    let newList := list.set i (updatedItemOf p body currentItem)
    ⟨200, JValue.arr newList, some newList⟩

/-- DELETE /todos/:id: 404 when findIndex gives -1; else splice the slot
out, persist, and send the full remaining list (status 200). -/
def deleteTodo (p : String) (list : List JValue) : HandlerResult :=
  match findIndexP (idMatches (strToNum p)) list with
  | none => ⟨404, errObj "item not Found", none⟩
  | some i =>
    let newList := list.eraseIdx i
    ⟨200, JValue.arr newList, some newList⟩

/-- JSON whitespace (space, tab, line feed, carriage return), skipped
between tokens as JSON.parse does. -/
def skipWs : List Char → List Char
  | c :: cs =>
    if c = ' ' ∨ c = '\t' ∨ c = '\n' ∨ c = '\r' then skipWs cs else c :: cs
  | [] => []

/-- Single-character JSON string escapes. -/
def escChar (c : Char) : Option Char :=
  if c = '"' then some '"'
  else if c = '\\' then some '\\'
  else if c = '/' then some '/'
  else if c = 'b' then some (Char.ofNat 8)
  else if c = 'f' then some (Char.ofNat 12)
  else if c = 'n' then some '\n'
  else if c = 'r' then some '\r'
  else if c = 't' then some '\t'
  else none

/-- Body of a JSON string after the opening quote: the decoded characters
and the input after the closing quote.  Raw control characters below
U+0020 are rejected, as JSON.parse rejects them; surrogate-pair
recombination of two \u escapes is not modelled. -/
def parseStringRest : List Char → Option (List Char × List Char)
  | [] => none
  | '"' :: rest => some ([], rest)
  | '\\' :: 'u' :: h1 :: h2 :: h3 :: h4 :: rest =>
    (match hexVal h1, hexVal h2, hexVal h3, hexVal h4 with
     | some a, some b, some c, some d =>
       (parseStringRest rest).map
         (fun r => (Char.ofNat (((a * 16 + b) * 16 + c) * 16 + d) :: r.1, r.2))
     | _, _, _, _ => none)
  | '\\' :: c :: rest =>
    (match escChar c with
     | some e => (parseStringRest rest).map (fun r => (e :: r.1, r.2))
     | none => none)
  | c :: rest =>
    if c.toNat < 32 then none
    else (parseStringRest rest).map (fun r => (c :: r.1, r.2))

/-- The exponent part of a JSON number, mid-stream: no exponent leaves
the input as is; e or E must be followed by an optional sign and one or
more digits, which are consumed. -/
def jsonExp : List Char → Option (Int × List Char)
  | [] => some (0, [])
  | c :: cs =>
    if c = 'e' ∨ c = 'E' then
      match cs with
      | '+' :: ds =>
        (match takeDigits ds with
         | ([], _) => none
         | (es, r) => some ((digitsToNat es : Int), r))
      | '-' :: ds =>
        (match takeDigits ds with
         | ([], _) => none
         | (es, r) => some (-(digitsToNat es : Int), r))
      | ds =>
        match takeDigits ds with
        | ([], _) => none
        | (es, r) => some ((digitsToNat es : Int), r)
    else some (0, c :: cs)

/-- A JSON number at the head of the input: optional minus, an integer
part with no leading zero before another digit, an optional fraction of
one or more digits, and an optional exponent, valued as an exact
rational. -/
def parseNum (s : List Char) : Option (Rat × List Char) :=
  let core := fun (cs : List Char) (neg : Bool) =>
    match takeDigits cs with
    | ([], _) => none
    | (ds, rest) =>
      if ds.length > 1 ∧ ds.headD ' ' = '0' then none
      else
        let withFrac := fun (fp : List Char) (r2 : List Char) =>
          match jsonExp r2 with
          | none => none
          | some (ex, r3) =>
            let v := decValue ds fp ex
            some (if neg then -v else v, r3)
        match rest with
        | '.' :: r1 =>
          (match takeDigits r1 with
           | ([], _) => none
           | (fp, r2) => withFrac fp r2)
        | r1 => withFrac [] r1
  match s with
  | '-' :: cs => core cs true
  | cs => core cs false

mutual

/-- A JSON value at the head of the input, with fuel bounding the nesting
depth.  Duplicate keys in an object literal keep the first key's position
and the last key's value, as JSON.parse does. -/
def parseValue : Nat → List Char → Option (JValue × List Char)
  | 0, _ => none
  | Nat.succ f, s =>
    match skipWs s with
    | 'n' :: 'u' :: 'l' :: 'l' :: rest => some (JValue.null, rest)
    | 't' :: 'r' :: 'u' :: 'e' :: rest => some (JValue.bool true, rest)
    | 'f' :: 'a' :: 'l' :: 's' :: 'e' :: rest => some (JValue.bool false, rest)
    | '"' :: rest =>
      (match parseStringRest rest with
       | some (cs, r) => some (JValue.str (String.mk cs), r)
       | none => none)
    | '[' :: rest =>
      (match skipWs rest with
       | ']' :: r2 => some (JValue.arr [], r2)
       | r2 =>
         match parseItems f r2 with
         | some (vs, r3) => some (JValue.arr vs, r3)
         | none => none)
    | '\x7b' :: rest =>
      (match skipWs rest with
       | '\x7d' :: r2 => some (JValue.obj [], r2)
       | r2 =>
         match parseFields f r2 with
         | some (ms, r3) =>
           some (JValue.obj (ms.foldl (fun o q => setField o q.1 q.2) []), r3)
         | none => none)
    | s2 =>
      match parseNum s2 with
      | some (n, r) => some (JValue.num (some n), r)
      | none => none

/-- One or more comma-separated array items followed by the closing
bracket. -/
def parseItems : Nat → List Char → Option (List JValue × List Char)
  | 0, _ => none
  | Nat.succ f, s =>
    match parseValue f s with
    | none => none
    | some (v, r) =>
      match skipWs r with
      | ',' :: r2 =>
        (match parseItems f r2 with
         | some (vs, r3) => some (v :: vs, r3)
         | none => none)
      | ']' :: r2 => some ([v], r2)
      | _ => none

/-- One or more comma-separated object members followed by the closing
brace. -/
def parseFields : Nat → List Char →
    Option (List (String × JValue) × List Char)
  | 0, _ => none
  | Nat.succ f, s =>
    match skipWs s with
    | '"' :: rest =>
      (match parseStringRest rest with
       | none => none
       | some (kcs, r) =>
         match skipWs r with
         | ':' :: r2 =>
           (match parseValue f r2 with
            | none => none
            | some (v, r3) =>
              match skipWs r3 with
              | ',' :: r4 =>
                (match parseFields f r4 with
                 | some (ms, r5) => some ((String.mk kcs, v) :: ms, r5)
                 | none => none)
              | '\x7d' :: r4 => some ([(String.mk kcs, v)], r4)
              | _ => none)
         | _ => none)
    | _ => none

end

/-- The id field of a data-model record, when it is a (non-NaN) number. -/
def recordId (x : JValue) : Option Rat :=
  match getField x "id" with
  | some (JValue.num (some n)) => some n
  | _ => none

/-- The numeric ids of the records of a list. -/
def recordIds (list : List JValue) : List Rat := list.filterMap recordId

/-- The value the maxId accumulator of generateNewId reaches on a
data-model list: the maximum of 0 and the record ids. -/
def maxIdOf (list : List JValue) : Rat := (recordIds list).foldl max 0

/-- A record as the data model describes it: its id is a strictly
positive (integral) number. -/
def isGoodRecord (x : JValue) : Bool :=
  match getField x "id" with
  | some (JValue.num (some n)) => decide (0 < n)
  | _ => false

/-- A list of data-model records. -/
def goodList (list : List JValue) : Bool := list.all isGoodRecord

theorem lookupField_append (l1 l2 : List (String × JValue)) (k : String) :
    lookupField (l1 ++ l2) k =
      match lookupField l1 k with
      | some v => some v
      | none => lookupField l2 k := by
  induction l1 with
  | nil => simp [lookupField]
  | cons p ps ih =>
    by_cases h : p.1 = k
    · simp [lookupField, h]
    · simp [lookupField, h, ih]

theorem lookupField_eq_none_of_not_any (l : List (String × JValue))
    (k : String) (h : l.any (fun p => p.1 = k) = false) :
    lookupField l k = none := by
  induction l with
  | nil => rfl
  | cons p ps ih =>
    simp only [List.any_cons, Bool.or_eq_false_iff] at h
    have h1 : p.1 ≠ k := by simpa using h.1
    simp [lookupField, h1, ih h.2]

theorem lookupField_mapSet_self (l : List (String × JValue))
    (k : String) (v : JValue) (h : l.any (fun p => p.1 = k) = true) :
    lookupField (l.map (fun p => if p.1 = k then (k, v) else p)) k
      = some v := by
  induction l with
  | nil => simp at h
  | cons p ps ih =>
    by_cases hp : p.1 = k
    · simp [lookupField, hp]
    · simp only [List.any_cons, Bool.or_eq_true] at h
      rcases h with h | h
      · exact absurd (by simpa using h) hp
      · simp [lookupField, hp, ih h]

theorem lookupField_mapSet_ne (l : List (String × JValue))
    (k k' : String) (v : JValue) (hne : k' ≠ k) :
    lookupField (l.map (fun p => if p.1 = k then (k, v) else p)) k'
      = lookupField l k' := by
  induction l with
  | nil => rfl
  | cons p ps ih =>
    by_cases hp : p.1 = k
    · have hpk' : p.1 ≠ k' := by
        rw [hp]; exact fun hh => hne hh.symm
      have hkk' : k ≠ k' := fun hh => hne hh.symm
      simp [lookupField, hp, hpk', hkk', ih]
    · by_cases hp' : p.1 = k'
      · simp [lookupField, hp, hp', hne]
      · simp [lookupField, hp, hp', ih]

theorem lookupField_setField_self (l : List (String × JValue))
    (k : String) (v : JValue) :
    lookupField (setField l k v) k = some v := by
  unfold setField
  by_cases h : l.any (fun p => p.1 = k) = true
  · rw [if_pos h]
    exact lookupField_mapSet_self l k v h
  · rw [if_neg h, lookupField_append,
      lookupField_eq_none_of_not_any l k (Bool.eq_false_iff.mpr h)]
    simp [lookupField]

theorem lookupField_setField_ne (l : List (String × JValue))
    (k k' : String) (v : JValue) (hne : k' ≠ k) :
    lookupField (setField l k v) k' = lookupField l k' := by
  unfold setField
  by_cases h : l.any (fun p => p.1 = k) = true
  · rw [if_pos h]
    exact lookupField_mapSet_ne l k k' v hne
  · rw [if_neg h, lookupField_append]
    cases hl : lookupField l k' with
    | some w => simp
    | none =>
      have hkk' : k ≠ k' := fun hh => hne hh.symm
      simp [lookupField, hkk']

theorem getField_obj (l : List (String × JValue)) (k : String) :
    getField (JValue.obj l) k = lookupField l k := rfl

theorem lookupField_objFields (body : JValue) (k : String) :
    lookupField (objFields body) k = getField body k := by
  cases body <;> rfl

theorem findIndexP_eq_some (f : JValue → Bool) (l : List JValue) (i : Nat)
    (h : findIndexP f l = some i) :
    ∃ hi : i < l.length, f (l.get ⟨i, hi⟩) = true := by
  induction l generalizing i with
  | nil => simp [findIndexP] at h
  | cons x xs ih =>
    by_cases hx : f x = true
    · simp [findIndexP, hx] at h
      subst h
      exact ⟨by simp, by simpa using hx⟩
    · simp only [Bool.not_eq_true] at hx
      simp only [findIndexP, hx, Bool.false_eq_true, if_false,
        Option.map_eq_some'] at h
      obtain ⟨j, hj, rfl⟩ := h
      obtain ⟨hlt, hf⟩ := ih j hj
      exact ⟨by simpa using Nat.succ_lt_succ hlt, by simpa using hf⟩

theorem le_foldl_max (l : List Rat) (a : Rat) : a ≤ l.foldl max a := by
  induction l generalizing a with
  | nil => exact le_refl a
  | cons x xs ih => exact le_trans (le_max_left a x) (ih (max a x))

theorem mem_le_foldl_max (l : List Rat) (a n : Rat) (h : n ∈ l) :
    n ≤ l.foldl max a := by
  induction l generalizing a with
  | nil => simp at h
  | cons x xs ih =>
    rcases List.mem_cons.mp h with rfl | h
    · exact le_trans (le_max_right a n) (le_foldl_max xs (max a n))
    · exact ih (max a x) h

theorem foldl_max_attained (l : List Rat) (a : Rat) :
    l.foldl max a = a ∨ l.foldl max a ∈ l := by
  induction l generalizing a with
  | nil => exact Or.inl rfl
  | cons x xs ih =>
    rcases ih (max a x) with h | h
    · rcases max_choice a x with hm | hm
      · exact Or.inl (by rw [List.foldl_cons, h, hm])
      · exact Or.inr (by rw [List.foldl_cons, h, hm]; exact List.mem_cons_self x xs)
    · exact Or.inr (List.mem_cons_of_mem x h)

/-! Lemmas relating the data-model predicates to generateNewId. -/

theorem isGoodRecord_iff (x : JValue) :
    isGoodRecord x = true ↔
      ∃ n : Rat, 0 < n ∧ getField x "id" = some (JValue.num (some n)) := by
  unfold isGoodRecord
  cases hx : getField x "id" with
  | none => simp
  | some v =>
    cases v with
    | num o =>
      cases o with
      | none => simp
      | some n =>
        simp only [decide_eq_true_eq]
        constructor
        · exact fun h => ⟨n, h, rfl⟩
        · rintro ⟨m, hm, hv⟩
          cases hv
          exact hm
    | null => simp
    | bool b => simp
    | str s => simp
    | arr l => simp
    | obj l => simp

theorem recordId_of_good (x : JValue) (h : isGoodRecord x = true) :
    ∃ n : Rat, 0 < n ∧ getField x "id" = some (JValue.num (some n))
      ∧ recordId x = some n := by
  obtain ⟨n, hn, hx⟩ := (isGoodRecord_iff x).mp h
  exact ⟨n, hn, hx, by unfold recordId; rw [hx]⟩

theorem bumpMax_good (a : Rat) (x : JValue) (n : Rat)
    (hx : getField x "id" = some (JValue.num (some n))) :
    bumpMax (JValue.num (some a)) x = JValue.num (some (max a n)) := by
  have hred : bumpMax (JValue.num (some a)) x
      = if decide (a < n) = true then JValue.num (some n)
        else JValue.num (some a) := by
    unfold bumpMax
    rw [hx]
    rfl
  rw [hred]
  rcases lt_trichotomy a n with h | h | h
  · rw [if_pos (by simpa using h), max_eq_right (le_of_lt h)]
  · subst h
    simp
  · rw [if_neg (by simpa using not_lt_of_gt h), max_eq_left (le_of_lt h)]

theorem foldl_bumpMax_good (l : List JValue) (a : Rat)
    (h : ∀ x ∈ l, isGoodRecord x = true) :
    l.foldl bumpMax (JValue.num (some a))
      = JValue.num (some ((recordIds l).foldl max a)) := by
  induction l generalizing a with
  | nil => rfl
  | cons x xs ih =>
    obtain ⟨n, _, hx, hid⟩ :=
      recordId_of_good x (h x (List.mem_cons_self x xs))
    rw [List.foldl_cons, bumpMax_good a x n hx]
    rw [ih (max a n) (fun y hy => h y (List.mem_cons_of_mem x hy))]
    unfold recordIds
    rw [List.filterMap_cons, hid]
    rfl

theorem generateNewId_good (l : List JValue) (h : goodList l = true) :
    generateNewId l = JValue.num (some (maxIdOf l + 1)) := by
  unfold generateNewId maxIdOf
  rw [foldl_bumpMax_good l 0 (List.all_eq_true.mp h)]
  rfl

theorem maxIdOf_nonneg (l : List JValue) : 0 ≤ maxIdOf l :=
  le_foldl_max (recordIds l) 0

theorem le_maxIdOf_of_mem (l : List JValue) (n : Rat)
    (h : n ∈ recordIds l) : n ≤ maxIdOf l :=
  mem_le_foldl_max (recordIds l) 0 n h

theorem maxIdOf_not_mem_succ (l : List JValue) :
    maxIdOf l + 1 ∉ recordIds l := by
  intro h
  have := le_maxIdOf_of_mem l (maxIdOf l + 1) h
  linarith

theorem recordIds_good_ne_nil (l : List JValue) (h : goodList l = true)
    (hne : l ≠ []) : recordIds l ≠ [] := by
  cases l with
  | nil => exact absurd rfl hne
  | cons x xs =>
    obtain ⟨n, _, _, hid⟩ :=
      recordId_of_good x ((List.all_eq_true.mp h) x (List.mem_cons_self x xs))
    unfold recordIds
    rw [List.filterMap_cons, hid]
    simp

theorem maxIdOf_mem_of_good (l : List JValue) (h : goodList l = true)
    (hne : l ≠ []) : maxIdOf l ∈ recordIds l := by
  rcases foldl_max_attained (recordIds l) 0 with hz | hm
  · exfalso
    have hn := recordIds_good_ne_nil l h hne
    cases hl : recordIds l with
    | nil => exact hn hl
    | cons m ms =>
      have hmem : m ∈ recordIds l := by rw [hl]; exact List.mem_cons_self m ms
      have hml := le_maxIdOf_of_mem l m hmem
      have : ∃ x ∈ l, recordId x = some m := by
        obtain ⟨x, hx1, hx2⟩ := List.mem_filterMap.mp hmem
        exact ⟨x, hx1, hx2⟩
      obtain ⟨x, hx1, hx2⟩ := this
      obtain ⟨n, hn0, _, hid⟩ :=
        recordId_of_good x ((List.all_eq_true.mp h) x hx1)
      rw [hid] at hx2
      cases hx2
      have hz' : maxIdOf l = 0 := hz
      linarith
  · exact hm

/-- C1: for every todo list loaded from the store (a list of data-model
records, whose ids are strictly positive numbers), the id assigned to a
newly created record equals the maximum of the existing ids plus 1
(maxIdOf is that maximum: it bounds every id and is attained on a
non-empty list), equals 1 when the list is empty, and is a strictly
positive integer not present in the list before the creation. -/
theorem claim1_generateNewId (list : List JValue)
    (h : goodList list = true) :
    generateNewId list = JValue.num (some (maxIdOf list + 1))
    ∧ (list = [] → generateNewId list = JValue.num (some 1))
    ∧ (∀ n ∈ recordIds list, n ≤ maxIdOf list)
    ∧ (list ≠ [] → maxIdOf list ∈ recordIds list)
    ∧ 0 < maxIdOf list + 1
    ∧ maxIdOf list + 1 ∉ recordIds list := by
  refine ⟨generateNewId_good list h, ?_, ?_, ?_, ?_, ?_⟩
  · intro hnil
    subst hnil
    rfl
  · exact fun n hn => le_maxIdOf_of_mem list n hn
  · exact maxIdOf_mem_of_good list h
  · have := maxIdOf_nonneg list
    linarith
  · exact maxIdOf_not_mem_succ list

/-- Concrete instance for the C1 theorem: a one-record list with id 2. -/
def exList1 : List JValue :=
  [JValue.obj [("id", JValue.num (some 2)), ("title", JValue.str "A")]]

/-- Witness for C1 at a concrete list. -/
theorem claim1_generateNewId_witness :
    goodList exList1 = true
    ∧ (generateNewId exList1 = JValue.num (some (maxIdOf exList1 + 1))
       ∧ (exList1 = [] → generateNewId exList1 = JValue.num (some 1))
       ∧ (∀ n ∈ recordIds exList1, n ≤ maxIdOf exList1)
       ∧ (exList1 ≠ [] → maxIdOf exList1 ∈ recordIds exList1)
       ∧ 0 < maxIdOf exList1 + 1
       ∧ maxIdOf exList1 + 1 ∉ recordIds exList1) :=
  ⟨by decide, claim1_generateNewId exList1 (by decide)⟩

/-- C2: a POST body with a missing or falsy title is answered 404 with
the title-mandatory error and nothing is written; otherwise the record
built by spreading the body and assigning the generated id is appended,
the whole list is persisted, and the response is 201 carrying the entire
updated list.  The appended record's id field is the generated id and its
other fields are exactly the body's. -/
theorem claim2_postTodos (body : JValue) (list : List JValue) :
    (propTruthy body "title" = false →
       postTodos body list = ⟨404, errObj "title mandatory", none⟩)
    ∧ (propTruthy body "title" = true →
       postTodos body list =
         ⟨201, JValue.arr (list ++ [newRecordOf body list]),
          some (list ++ [newRecordOf body list])⟩
       ∧ getField (newRecordOf body list) "id" = some (generateNewId list)
       ∧ (∀ k, k ≠ "id" →
            getField (newRecordOf body list) k = getField body k)) := by
  constructor
  · intro hf
    unfold postTodos
    rw [hf]
    rfl
  · intro ht
    refine ⟨?_, ?_, ?_⟩
    · unfold postTodos
      rw [ht]
      rfl
    · unfold newRecordOf
      rw [getField_obj]
      exact lookupField_setField_self (objFields body) "id" (generateNewId list)
    · intro k hk
      unfold newRecordOf
      rw [getField_obj]
      rw [lookupField_setField_ne (objFields body) "id" k (generateNewId list) hk]
      exact lookupField_objFields body k

/-- A body with a non-empty title, for witnesses. -/
def exBody2 : JValue := JValue.obj [("title", JValue.str "B")]

/-- Witness for C2: both branches at concrete inputs. -/
theorem claim2_postTodos_witness :
    (propTruthy (JValue.obj []) "title" = false
     ∧ postTodos (JValue.obj []) exList1 =
         ⟨404, errObj "title mandatory", none⟩)
    ∧ (propTruthy exBody2 "title" = true
       ∧ (postTodos exBody2 exList1 =
            ⟨201, JValue.arr (exList1 ++ [newRecordOf exBody2 exList1]),
             some (exList1 ++ [newRecordOf exBody2 exList1])⟩
          ∧ getField (newRecordOf exBody2 exList1) "id"
              = some (generateNewId exList1)
          ∧ (∀ k, k ≠ "id" →
               getField (newRecordOf exBody2 exList1) k
                 = getField exBody2 k))) :=
  ⟨⟨by decide, (claim2_postTodos (JValue.obj []) exList1).1 (by decide)⟩,
   ⟨by decide, (claim2_postTodos exBody2 exList1).2 (by decide)⟩⟩

/-- C10: the two read-only routes never call the store writer: for every
loaded list and path parameter, their results carry no write. -/
theorem claim10_reads_no_write (list : List JValue) (p : String) :
    (getTodos list).write = none ∧ (getTodoById p list).write = none := by
  constructor
  · rfl
  · unfold getTodoById
    cases hf : findP (idMatches (strToNum p)) list with
    | none => rfl
    | some item =>
      cases ht : jsTruthy item <;> simp [ht]

/-- Inversion of a successful id match: the coerced parameter is a
number and the record's id field is that same number. -/
theorem idMatches_true (idv : Option Rat) (x : JValue)
    (h : idMatches idv x = true) :
    ∃ n : Rat, idv = some n
      ∧ getField x "id" = some (JValue.num (some n)) := by
  unfold idMatches at h
  cases hf : getField x "id" with
  | none => rw [hf] at h; cases idv <;> simp at h
  | some v =>
    rw [hf] at h
    cases v with
    | num o =>
      cases o with
      | none => cases idv <;> simp at h
      | some k =>
        cases idv with
        | none => simp at h
        | some m =>
          have : k = m := by simpa using h
          exact ⟨m, rfl, by rw [this]⟩
    | null => cases idv <;> simp at h
    | bool b => cases idv <;> simp at h
    | str s => cases idv <;> simp at h
    | arr l => cases idv <;> simp at h
    | obj l => cases idv <;> simp at h

/-- The element found by findIndexP is the matched one. -/
theorem findIndexP_getElem (f : JValue → Bool) (l : List JValue) (i : Nat)
    (x : JValue) (h : findIndexP f l = some i) (hx : l[i]? = some x) :
    i < l.length ∧ f x = true := by
  obtain ⟨hi, hf⟩ := findIndexP_eq_some f l i h
  have : l[i]? = some (l.get ⟨i, hi⟩) := by
    rw [List.getElem?_eq_getElem hi]
    rfl
  rw [this] at hx
  cases hx
  exact ⟨hi, hf⟩

/-- The two records used in the C3 and C9 witnesses. -/
def exRec1 : JValue :=
  JValue.obj [("id", JValue.num (some 1)), ("title", JValue.str "A")]

/-- Second witness record, with id 2. -/
def exRec2 : JValue :=
  JValue.obj [("id", JValue.num (some 2)), ("title", JValue.str "B")]

theorem postTodos_write_eq (body : JValue) (list l' : List JValue)
    (h : (postTodos body list).write = some l') :
    propTruthy body "title" = true
      ∧ l' = list ++ [newRecordOf body list] := by
  unfold postTodos at h
  cases ht : propTruthy body "title" with
  | false => rw [ht] at h; cases h
  | true =>
    rw [ht] at h
    simp only [Bool.not_true, Bool.false_eq_true, if_false] at h
    exact ⟨rfl, (Option.some_inj.mp h).symm⟩

theorem putTodo_write_eq (p : String) (body : JValue)
    (list l' : List JValue)
    (h : (putTodo p body list).write = some l') :
    ∃ i cur, findIndexP (idMatches (strToNum p)) list = some i
      ∧ list[i]? = some cur
      ∧ l' = list.set i (updatedItemOf p body cur) := by
  unfold putTodo at h
  cases hf : findIndexP (idMatches (strToNum p)) list with
  | none => rw [hf] at h; cases h
  | some i =>
    rw [hf] at h
    obtain ⟨hi, _⟩ := findIndexP_eq_some _ _ _ hf
    have hcur : list[i]? = some (list.get ⟨i, hi⟩) := by
      rw [List.getElem?_eq_getElem hi]
      rfl
    refine ⟨i, list.get ⟨i, hi⟩, rfl, hcur, ?_⟩
    simp only [hcur, Option.getD_some] at h
    exact (Option.some_inj.mp h).symm

theorem deleteTodo_write_eq (p : String) (list l' : List JValue)
    (h : (deleteTodo p list).write = some l') :
    ∃ i, findIndexP (idMatches (strToNum p)) list = some i
      ∧ l' = list.eraseIdx i := by
  unfold deleteTodo at h
  cases hf : findIndexP (idMatches (strToNum p)) list with
  | none => rw [hf] at h; cases h
  | some i =>
    rw [hf] at h
    exact ⟨i, rfl, (Option.some_inj.mp h).symm⟩

/-- The id field of the merged PUT record equals the id field of the
record it replaces (the path id wins and it is the matched record's
id). -/
theorem updatedItemOf_id (p : String) (body cur : JValue)
    (hmatch : idMatches (strToNum p) cur = true) :
    getField (updatedItemOf p body cur) "id" = getField cur "id" := by
  obtain ⟨n, hp, hid⟩ := idMatches_true (strToNum p) cur hmatch
  unfold updatedItemOf
  rw [getField_obj, lookupField_setField_self, hid, hp]

/-- Records with equal id fields are equally good. -/
theorem isGoodRecord_congr (x y : JValue)
    (h : getField x "id" = getField y "id") :
    isGoodRecord x = isGoodRecord y := by
  unfold isGoodRecord
  rw [h]

/-- Records with equal id fields have the same recordId. -/
theorem recordId_congr (x y : JValue)
    (h : getField x "id" = getField y "id") :
    recordId x = recordId y := by
  unfold recordId
  rw [h]

/-- The id field of the record appended by a creation is the generated
id, the successor of the maximal existing id. -/
theorem newRecordOf_id (body : JValue) (list : List JValue)
    (hgood : goodList list = true) :
    getField (newRecordOf body list) "id"
      = some (JValue.num (some (maxIdOf list + 1))) := by
  unfold newRecordOf
  rw [getField_obj, lookupField_setField_self, generateNewId_good list hgood]

/-- The record appended by a creation is a data-model record: its id is
the strictly positive generated id. -/
theorem isGoodRecord_newRecord (body : JValue) (list : List JValue)
    (hgood : goodList list = true) :
    isGoodRecord (newRecordOf body list) = true
    ∧ recordId (newRecordOf body list) = some (maxIdOf list + 1) := by
  have hfield := newRecordOf_id body list hgood
  constructor
  · unfold isGoodRecord
    rw [hfield]
    have := maxIdOf_nonneg list
    exact decide_eq_true (by linarith)
  · unfold recordId
    rw [hfield]

/-- Replacing the record at a valid index by one with the same recordId
leaves recordIds unchanged. -/
theorem recordIds_set (list : List JValue) (i : Nat) (v cur : JValue)
    (hcur : list[i]? = some cur) (hid : recordId v = recordId cur) :
    recordIds (list.set i v) = recordIds list := by
  induction list generalizing i with
  | nil => cases hcur
  | cons x xs ih =>
    cases i with
    | zero =>
      have : x = cur := by
        simpa using hcur
      subst this
      unfold recordIds
      rw [List.set_cons_zero, List.filterMap_cons, List.filterMap_cons, hid]
    | succ j =>
      have hj : xs[j]? = some cur := by simpa using hcur
      unfold recordIds
      rw [List.set_cons_succ, List.filterMap_cons, List.filterMap_cons]
      have := ih j hj
      unfold recordIds at this
      rw [this]

/-- C6: the uniqueness invariant is preserved: starting from a list of
data-model records with pairwise-distinct ids, whatever list any of the
three mutating handlers persists is again a list of data-model records
with pairwise-distinct ids. -/
theorem claim6_unique_ids (list : List JValue)
    (hgood : goodList list = true) (hnd : (recordIds list).Nodup) :
    (∀ body l', (postTodos body list).write = some l' →
        goodList l' = true ∧ (recordIds l').Nodup)
    ∧ (∀ p body l', (putTodo p body list).write = some l' →
        goodList l' = true ∧ (recordIds l').Nodup)
    ∧ (∀ p l', (deleteTodo p list).write = some l' →
        goodList l' = true ∧ (recordIds l').Nodup) := by
  refine ⟨?_, ?_, ?_⟩
  · intro body l' h
    obtain ⟨-, rfl⟩ := postTodos_write_eq body list l' h
    obtain ⟨hgr, hrid⟩ := isGoodRecord_newRecord body list hgood
    constructor
    · unfold goodList
      rw [List.all_append]
      unfold goodList at hgood
      rw [hgood]
      simpa using hgr
    · unfold recordIds
      rw [List.filterMap_append]
      have : List.filterMap recordId [newRecordOf body list]
          = [maxIdOf list + 1] := by
        rw [List.filterMap_cons, hrid]
        rfl
      rw [this]
      rw [List.nodup_append]
      refine ⟨hnd, List.nodup_singleton _, ?_⟩
      intro a ha hb
      rw [List.mem_singleton] at hb
      subst hb
      exact maxIdOf_not_mem_succ list ha
  · intro p body l' h
    obtain ⟨i, cur, hf, hcur, rfl⟩ := putTodo_write_eq p body list l' h
    obtain ⟨-, hmatch⟩ := findIndexP_getElem _ list i cur hf hcur
    have hidf := updatedItemOf_id p body cur hmatch
    have hcurmem : cur ∈ list := by
      have := List.getElem?_mem hcur
      exact this
    constructor
    · rw [goodList, List.all_eq_true]
      intro y hy
      rcases List.mem_or_eq_of_mem_set hy with hy | rfl
      · exact (List.all_eq_true.mp hgood) y hy
      · rw [isGoodRecord_congr _ cur hidf]
        exact (List.all_eq_true.mp hgood) cur hcurmem
    · rw [recordIds_set list i _ cur hcur (recordId_congr _ cur hidf)]
      exact hnd
  · intro p l' h
    obtain ⟨i, -, rfl⟩ := deleteTodo_write_eq p list l' h
    have hsub := List.eraseIdx_sublist list i
    constructor
    · rw [goodList, List.all_eq_true]
      intro y hy
      exact (List.all_eq_true.mp hgood) y (hsub.mem hy)
    · exact (hsub.filterMap recordId).nodup hnd

/-- Witness for C6 at a concrete two-record list. -/
theorem claim6_unique_ids_witness :
    goodList [exRec1, exRec2] = true
    ∧ (recordIds [exRec1, exRec2]).Nodup
    ∧ ((∀ body l',
          (postTodos body [exRec1, exRec2]).write = some l' →
          goodList l' = true ∧ (recordIds l').Nodup)
       ∧ (∀ p body l',
            (putTodo p body [exRec1, exRec2]).write = some l' →
            goodList l' = true ∧ (recordIds l').Nodup)
       ∧ (∀ p l',
            (deleteTodo p [exRec1, exRec2]).write = some l' →
            goodList l' = true ∧ (recordIds l').Nodup)) :=
  ⟨by decide, by decide,
   claim6_unique_ids [exRec1, exRec2] (by decide) (by decide)⟩

end TodoServer
